import Mathlib

/-!
Verification of the txoauth2 reference implementations (`txoauth2/imp.py`)
and of the spec-described token-endpoint behaviour, as a shallow embedding.

Python dictionaries are embedded as association lists together with
`dictLookup` / `dictInsert` / `dictErase`, where `dictLookup` returns the
first binding for a key; `dictInsert` and `dictErase` are observationally
(through `dictLookup`) the Python dict update and `del` operations.

Wall-clock time (`time.time()`) is passed explicitly as a `now : Int`
argument to every operation that reads the clock.  Python exceptions are
embedded as `Except (PyErr × σ)` so that a raised error also carries the
state of the mutated store at raise time (Python mutations performed before
a raise persist).
-/

/-- Python exceptions raised by the embedded code: `KeyError` and
`ValueError`, each carrying its message/key. -/
inductive PyErr where
  | keyError (msg : String)
  | valueError (msg : String)
deriving DecidableEq

/-- Lookup of the first binding of key `k` in an association list,
embedding Python `d[k]` / `k in d` on dictionaries. -/
def dictLookup {β : Type} : List (String × β) → String → Option β
  | [], _ => none
  | (k', v) :: rest, k => if k' = k then some v else dictLookup rest k

/-- Removal of every binding of key `k`, embedding Python `del d[k]`
(observationally through `dictLookup`). -/
def dictErase {β : Type} (d : List (String × β)) (k : String) : List (String × β) :=
  d.filter (fun p => p.1 ≠ k)

/-- Insertion embedding Python `d[k] = v` (observationally through
`dictLookup`): any old binding disappears and `k` is now bound to `v`. -/
def dictInsert {β : Type} (d : List (String × β)) (k : String) (v : β) :
    List (String × β) :=
  dictErase d k ++ [(k, v)]

/-- A token record in `DictTokenStorage._tokens` (`txoauth2/imp.py`,
`store`): the value dict `{'data': additionalData, 'expireTime': expireTime,
'scope': scope}`.  `additionalData` is an opaque host value of type `α`. -/
structure TokenRecord (α : Type) where
  data : α
  expireTime : Option Int
  scope : List String
deriving DecidableEq

/-- The class-level dictionary `DictTokenStorage._tokens`: one table for the
whole Python process, since `_tokens = {}` is a class attribute. -/
abbrev TokenDict (α : Type) := List (String × TokenRecord α)

/-- A `DictTokenStorage` instance.  Instances carry no instance attributes:
`_tokens` is a class attribute, so every operation below acts on the shared
process-wide `TokenDict` no matter which instance it is invoked on. -/
structure DictTokenStorage where
  instanceId : Nat
deriving DecidableEq

/-- The scope argument of `DictTokenStorage.store`: either a bare scope
value or a list (Python `if not isinstance(scope, list): scope = [scope]`). -/
inductive ScopeArg where
  | single (s : String)
  | list (l : List String)
deriving DecidableEq

namespace DictTokenStorage

/-- Embedding of `DictTokenStorage._checkExpire` (`imp.py` lines 119-129):
reads `self._tokens[token]['expireTime']` (raising `KeyError` on an absent
token), and if `time.time() > expireTime` deletes the record and returns
`True`, else returns `False`. -/
def checkExpire {α : Type} (_self : DictTokenStorage) (st : TokenDict α)
    (token : String) (now : Int) :
    Except (PyErr × TokenDict α) (Bool × TokenDict α) :=
  match dictLookup st token with
  | none => .error (.keyError token, st)
  | some r =>
      match r.expireTime with
      | none => .ok (false, st)
      | some e => if e < now then .ok (true, dictErase st token) else .ok (false, st)

/-- Embedding of `DictTokenStorage.contains` (`imp.py` lines 89-92):
`False` if the token is not in the table, else `not self._checkExpire(token)`. -/
def contains {α : Type} (self : DictTokenStorage) (st : TokenDict α)
    (token : String) (now : Int) :
    Except (PyErr × TokenDict α) (Bool × TokenDict α) :=
  match dictLookup st token with
  | none => .ok (false, st)
  | some _ =>
      match self.checkExpire st token now with
      | .error e => .error e
      | .ok (expired, st2) => .ok (!expired, st2)

/-- Embedding of `DictTokenStorage.hasAccess` (`imp.py` lines 94-100):
raises `KeyError('Token expired')` when `_checkExpire` reports expiry
(and propagates its `KeyError` on an absent token), then returns `False`
at the first requested scope item missing from the stored scope, else
`True`. -/
def hasAccess {α : Type} (self : DictTokenStorage) (st : TokenDict α)
    (token : String) (scope : List String) (now : Int) :
    Except (PyErr × TokenDict α) (Bool × TokenDict α) :=
  match self.checkExpire st token now with
  | .error e => .error e
  | .ok (expired, st2) =>
      if expired then
        .error (.keyError "Token expired", st2)
      else
        match dictLookup st2 token with
        | none => .error (.keyError token, st2)
        | some r => .ok (scope.all (fun s => r.scope.contains s), st2)

/-- Embedding of `DictTokenStorage.getTokenData` (`imp.py` lines 102-104):
runs `_checkExpire` (its purge included), then reads
`self._tokens[token]['scope'], self._tokens[token]['data']`, raising
`KeyError` when the record is gone. -/
def getTokenData {α : Type} (self : DictTokenStorage) (st : TokenDict α)
    (token : String) (now : Int) :
    Except (PyErr × TokenDict α) ((List String × α) × TokenDict α) :=
  match self.checkExpire st token now with
  | .error e => .error e
  | .ok (_, st2) =>
      match dictLookup st2 token with
      | none => .error (.keyError token, st2)
      | some r => .ok ((r.scope, r.data), st2)

/-- Embedding of `DictTokenStorage.store` (`imp.py` lines 106-117).  The
`isinstance(token, str)` guard is enforced by `token : String`; a bare
scope value is normalized into a one-element list; a write whose
`expireTime <= time.time()` is silently discarded; otherwise the record is
inserted/overwritten.  The `client` argument is ignored by the source. -/
def store {α γ : Type} (_self : DictTokenStorage) (st : TokenDict α)
    (token : String) (_client : γ) (scope : ScopeArg) (additionalData : α)
    (expireTime : Option Int) (now : Int) : TokenDict α :=
  let scopeList := match scope with
    | .single s => [s]
    | .list l => l
  match expireTime with
  | some e =>
      if e ≤ now then st
      else dictInsert st token ⟨additionalData, some e, scopeList⟩
  | none => dictInsert st token ⟨additionalData, none, scopeList⟩

end DictTokenStorage

/-- A record is expired at time `now` exactly when it has an expiry time
that `now` has passed (`time.time() > expireTime` in `_checkExpire`). -/
def recExpired {α : Type} (r : TokenRecord α) (now : Int) : Bool :=
  match r.expireTime with
  | none => false
  | some e => decide (e < now)

/-- Modelled from the spec: the `ClientAuthType` enumeration of
`txoauth2/clients.py` (not part of the sources at hand).  §3 names a
`SECRET` kind and identifier-only `PUBLIC`/`NONE` kinds, "persisted as a
small integer tag"; the concrete tags are chosen here as 0/1/2. -/
inductive ClientAuthType where
  | PUBLIC
  | SECRET
  | NONE
deriving DecidableEq

/-- The small integer tag persisted for a `ClientAuthType` member. -/
def ClientAuthType.value : ClientAuthType → Nat
  | .PUBLIC => 0
  | .SECRET => 1
  | .NONE => 2

/-- `ClientAuthType(tag)`: the member with the given tag, if any. -/
def ClientAuthType.ofValue : Nat → Option ClientAuthType
  | 0 => some .PUBLIC
  | 1 => some .SECRET
  | 2 => some .NONE
  | _ => none

/-- Modelled from the spec: the `Client` object of `txoauth2/clients.py`
(not part of the sources at hand), restricted to the four attributes the
reference client storage persists and re-loads (§4.4): `id`,
`redirectUris`, `authType` and `authToken`. -/
structure Client where
  id : String
  redirectUris : List String
  authType : ClientAuthType
  authToken : String
deriving DecidableEq

/-- Characters allowed after the leading letter of a URI scheme. -/
def isSchemeTailChar (c : Char) : Bool :=
  c.isAlphanum || c = '+' || c = '-' || c = '.'

/-- The characters of a candidate URI before its first colon, or `none`
when there is no colon at all. -/
def schemePart : List Char → Option (List Char)
  | [] => none
  | c :: cs => if c = ':' then some [] else (schemePart cs).map (fun p => c :: p)

/-- Modelled from the spec: a URI "parses as absolute" when it has a
scheme (§4.3) — a non-empty letter-led scheme token before a colon, as a
generic URI parser recognizes it. -/
def hasScheme (u : String) : Bool :=
  match schemePart u.data with
  | none => false
  | some [] => false
  | some (c :: cs) => c.isAlpha && cs.all isSchemeTailChar

/-- Modelled from the spec: the redirect-URI validity rule of the `Client`
constructor (§4.3): every redirect URI must be absolute (have a scheme,
any scheme accepted) and must not contain a fragment marker. -/
def Client.valid (c : Client) : Bool :=
  c.redirectUris.all (fun u => hasScheme u && !u.data.contains '#')

/-- A flat key/value configuration store (`RawConfigParser`): a list of
sections, each a list of option/value bindings. -/
abbrev ConfigParser := List (String × List (String × String))

/-- `RawConfigParser.has_section`. -/
def cpHasSection (p : ConfigParser) (s : String) : Bool :=
  (dictLookup p s).isSome

/-- `RawConfigParser.add_section`: appends a fresh empty section. -/
def cpAddSection (p : ConfigParser) (s : String) : ConfigParser :=
  p ++ [(s, [])]

/-- `RawConfigParser.set`: rebinds an option inside the first section of
the given name (the call sites in `imp.py` ensure the section exists). -/
def cpSet : ConfigParser → String → String → String → ConfigParser
  | [], _, _, _ => []
  | (name, opts) :: rest, s, k, v =>
      if name = s then (name, dictInsert opts k v) :: rest
      else (name, opts) :: cpSet rest s k v

/-- `RawConfigParser.get`: the value of an option in a section, if any. -/
def cpGet (p : ConfigParser) (s k : String) : Option String :=
  (dictLookup p s).bind (fun opts => dictLookup opts k)

/-- Python `int(value)` as `getint` applies it to a stored option value,
for the non-negative decimal strings produced when a small integer tag is
rendered: the digits of the string, or `none` when the string is not all
digits. -/
def strToNat (s : String) : Option Nat :=
  if s.data.isEmpty then none
  else if s.data.all Char.isDigit then
    some (s.data.foldl (fun n c => n * 10 + (c.toNat - '0'.toNat)) 0)
  else none

/-- `RawConfigParser.get` as the raising operation the source relies on
(`NoOptionError`/`NoSectionError` embedded as a `KeyError`-like value). -/
def cpGetE (p : ConfigParser) (s k : String) : Except PyErr String :=
  match cpGet p s k with
  | some v => .ok v
  | none => .error (.keyError k)

/-- Python `' '.join` on character lists. -/
def joinChars : List (List Char) → List Char
  | [] => []
  | [x] => x
  | x :: xs => x ++ ' ' :: joinChars xs

/-- Python `' '.join(l)` on strings (`imp.py` line 75). -/
def joinSpace (l : List String) : String :=
  ⟨joinChars (l.map String.data)⟩

/-- Python `str.split()` with no argument: splits on runs of whitespace
and never yields empty pieces.  The accumulator holds the current word,
reversed. -/
def splitWsAux : List Char → List Char → List (List Char)
  | [], [] => []
  | [], acc => [acc.reverse]
  | c :: cs, acc =>
      if c.isWhitespace then
        match acc with
        | [] => splitWsAux cs []
        | _ => acc.reverse :: splitWsAux cs []
      else splitWsAux cs (c :: acc)

/-- Python `str.split()` on a string (`imp.py` line 58). -/
def pySplit (s : String) : List String :=
  (splitWsAux s.data []).map (fun cs => ⟨cs⟩)

/-- Embedding of `ConfigParserClientStorage.addClient` (`imp.py` lines
63-79) acting on the in-memory parser state: ensures the section
`client_<id>` exists, then sets `auth_type` (the integer tag, rendered as
the decimal string `getint` reads back), `auth_token` and `redirect_uris`
(whitespace-joined).  The rewrite of the backing file has no effect on the
in-memory state `getClient` reads and is not modelled. -/
def addClient (p : ConfigParser) (c : Client) : ConfigParser :=
  let sec := "client_" ++ c.id
  let p1 := if cpHasSection p sec then p else cpAddSection p sec
  let p2 := cpSet p1 sec "auth_type" (toString c.authType.value)
  let p3 := cpSet p2 sec "auth_token" c.authToken
  cpSet p3 sec "redirect_uris" (joinSpace c.redirectUris)

/-- Embedding of `ConfigParserClientStorage.getClient` (`imp.py` lines
47-61): raises `KeyError` when the section `client_<id>` is absent, else
rebuilds the client from `redirect_uris` (split on whitespace), `auth_type`
(`getint`, then the `ClientAuthType` member of that tag) and
`auth_token`. -/
def getClient (p : ConfigParser) (clientId : String) : Except PyErr Client :=
  let sec := "client_" ++ clientId
  if cpHasSection p sec then
    match cpGetE p sec "redirect_uris" with
    | .error e => .error e
    | .ok uriStr =>
        match cpGetE p sec "auth_type" with
        | .error e => .error e
        | .ok tagStr =>
            match strToNat tagStr with
            | none => .error (.valueError tagStr)
            | some tag =>
                match ClientAuthType.ofValue tag with
                | none => .error (.valueError tagStr)
                | some authType =>
                    match cpGetE p sec "auth_token" with
                    | .error e => .error e
                    | .ok authToken =>
                        .ok ⟨clientId, pySplit uriStr, authType, authToken⟩
  else
    .error (.keyError ("No client with id \"" ++ clientId ++ "\" exists"))

/-- Fixed-width lowercase hexadecimal rendering of a natural number:
`width` digits, most significant first (the rendering Python applies to a
UUID's 128-bit integer). -/
def hexDigits : Nat → Nat → List Char
  | 0, _ => []
  | w + 1, n => hexDigits w (n / 16) ++ [Nat.digitChar (n % 16)]

/-- Embedding of `str(uuid.uuid4())`: the canonical hyphenated rendering
of a 128-bit identifier, 32 lowercase hexadecimal digits in groups of
8-4-4-4-12.  The randomness of `uuid4` is made explicit as the drawn
identifier `r` (the version/variant bit fixing of `uuid4` maps a random
128-bit draw to another 128-bit identifier, covered by quantifying over
`r`). -/
def uuidString (r : Nat) : String :=
  let n := r % 2 ^ 128
  ⟨hexDigits 8 (n / 16 ^ 24) ++ '-' ::
   (hexDigits 4 (n / 16 ^ 20) ++ '-' ::
    (hexDigits 4 (n / 16 ^ 16) ++ '-' ::
     (hexDigits 4 (n / 16 ^ 12) ++ '-' :: hexDigits 12 n)))⟩

/-- Embedding of `UUIDTokenFactory.generateToken` (`imp.py` lines 17-28):
`return str(uuid4())`, all four parameters unused; the random 128-bit draw
is the explicit argument `r`. -/
def generateToken {β γ δ : Type} (r : Nat) (_lifetime : β) (_client : γ)
    (_scope : List String) (_additionalData : δ) : String :=
  uuidString r

/-- Modelled from the spec: the valid-token character set of
`txoauth2/token.py` (not part of the sources at hand) — §4.1:
alphanumerics plus a small set of URL-safe punctuation; whitespace and
punctuation such as the exclamation mark are always rejected. -/
def validTokenChar (c : Char) : Bool :=
  c.isAlphanum || c = '-' || c = '.' || c = '_' || c = '~' || c = '+' || c = '/'

/-- Modelled from the spec: `TokenResource.isValidToken` of
`txoauth2/token.py` (not part of the sources at hand) — §4.1: true iff the
candidate is non-empty and every character belongs to the valid-token
alphabet. -/
def isValidToken (t : String) : Bool :=
  !t.data.isEmpty && t.data.all validTokenChar

/-- Modelled from the spec: the canonical OAuth2 error values of
`txoauth2/errors.py` (not part of the sources at hand) that the
token-endpoint parameter pipeline of §4.9 step 4 can produce. -/
inductive OAuth2Error where
  | missingParameter (name : String)
  | multipleParameter (name : String)
  | invalidParameter (name : String)
  | unsupportedGrantType (value : String)
deriving DecidableEq

/-- A raw request parameter value: either one that decodes as text, or an
undecodable byte sequence (§4.9 step 4 distinguishes exactly these). -/
inductive ParamValue where
  | text (s : String)
  | undecodable
deriving DecidableEq

/-- A token-endpoint request's parameters: the query parameters and the
body parameters, each a multimap given as a list of name/value pairs. -/
structure TokenRequest where
  queryParams : List (String × ParamValue)
  bodyParams : List (String × ParamValue)
deriving DecidableEq

/-- All occurrences of a parameter across the combined query and body
parameters, in order. -/
def paramOccurrences (r : TokenRequest) (name : String) : List ParamValue :=
  ((r.queryParams ++ r.bodyParams).filter (fun p => p.1 = name)).map (fun p => p.2)

/-- Modelled from the spec: the `grant_type` acceptance step of the token
endpoint (`txoauth2/token.py`, not part of the sources at hand) — §4.9
step 4: `grant_type` must appear exactly once across the combined query
and body parameters (`MissingParameterError` if absent,
`MultipleParameterError` if repeated, checked before value validity); a
sole occurrence must decode as text (`InvalidParameterError` otherwise);
the decoded value must be an accepted grant type
(`UnsupportedGrantTypeError` carrying the offending value otherwise). -/
def getGrantType (accepted : List String) (r : TokenRequest) :
    Except OAuth2Error String :=
  match paramOccurrences r "grant_type" with
  | [] => .error (.missingParameter "grant_type")
  | [v] =>
      match v with
      | .undecodable => .error (.invalidParameter "grant_type")
      | .text s => if accepted.contains s then .ok s else .error (.unsupportedGrantType s)
  | _ :: _ :: _ => .error (.multipleParameter "grant_type")

/-- The five grant-type identifiers of the `GrantTypes` enumeration (§3). -/
def allGrantTypes : List String :=
  ["authorization_code", "implicit", "password", "client_credentials", "refresh_token"]

/-- Modelled from the spec: the configured state of a constructed Token
Endpoint Resource (`txoauth2/token.py`, not part of the sources at hand)
that §4.9 and §4.8 constrain: the accepted grant types and whether a
password manager was supplied. -/
structure TokenResourceCfg where
  acceptedGrantTypes : List String
  hasPasswordManager : Bool
deriving DecidableEq

/-- Modelled from the spec: `TokenResource.__init__`
(`txoauth2/token.py`, not part of the sources at hand) — §4.9: the
enabled grant types default to all except the implicit grant, and an
implicit entry in a configured allow-list is silently dropped; §4.8:
enabling the password grant with no password manager supplied is a
configuration error raising `ValueError` at construction. -/
def mkTokenResource {π : Type} (grantTypes : Option (List String))
    (passwordManager : Option π) : Except PyErr TokenResourceCfg :=
  let accepted := (grantTypes.getD allGrantTypes).filter (fun g => g ≠ "implicit")
  if accepted.contains "password" && !passwordManager.isSome then
    .error (.valueError "No password manager provided")
  else
    .ok ⟨accepted, passwordManager.isSome⟩

/-- A lowercase hexadecimal digit. -/
def isHexDigitChar (c : Char) : Bool :=
  c.isDigit || ('a' ≤ c && c ≤ 'f')

theorem dictLookup_append {β : Type} (d₁ d₂ : List (String × β)) (k : String) :
    dictLookup (d₁ ++ d₂) k =
      match dictLookup d₁ k with
      | some v => some v
      | none => dictLookup d₂ k := by
  induction d₁ with
  | nil => simp [dictLookup]
  | cons p rest ih =>
      cases p with
      | mk k' v =>
          by_cases h : k' = k <;> simp [dictLookup, h, ih]

theorem dictLookup_erase_self {β : Type} (d : List (String × β)) (k : String) :
    dictLookup (dictErase d k) k = none := by
  induction d with
  | nil => simp [dictErase, dictLookup]
  | cons p rest ih =>
      cases p with
      | mk k' v =>
          by_cases h : k' = k
          · simp [dictErase, List.filter, h] at ih ⊢
            exact ih
          · simp [dictErase, List.filter, h, dictLookup] at ih ⊢
            exact ih

theorem dictLookup_erase_ne {β : Type} (d : List (String × β)) (k k' : String)
    (h : k' ≠ k) : dictLookup (dictErase d k) k' = dictLookup d k' := by
  induction d with
  | nil => simp [dictErase, dictLookup]
  | cons p rest ih =>
      cases p with
      | mk a v =>
          by_cases ha : a = k
          · subst ha
            simp [dictErase, List.filter, dictLookup, Ne.symm h] at ih ⊢
            exact ih
          · by_cases ha' : a = k'
            · subst ha'
              simp [dictErase, List.filter, ha, dictLookup]
            · simp [dictErase, List.filter, ha, dictLookup, ha'] at ih ⊢
              exact ih

theorem dictLookup_insert_self {β : Type} (d : List (String × β)) (k : String)
    (v : β) : dictLookup (dictInsert d k v) k = some v := by
  rw [dictInsert, dictLookup_append, dictLookup_erase_self]
  simp [dictLookup]

theorem dictLookup_insert_ne {β : Type} (d : List (String × β)) (k k' : String)
    (v : β) (h : k' ≠ k) :
    dictLookup (dictInsert d k v) k' = dictLookup d k' := by
  rw [dictInsert, dictLookup_append, dictLookup_erase_ne d k k' h]
  cases hl : dictLookup d k' with
  | some w => simp
  | none => simp [dictLookup, Ne.symm h]

/-- Claim C4: `DictTokenStorage.contains` returns true iff a record for
the token exists and has not expired at call time; an absent token yields
false without an error; an expired record is removed from the table as a
side effect of the check. -/
theorem dictTokenStorage_contains_correct {α : Type} (self : DictTokenStorage)
    (st : TokenDict α) (t : String) (now : Int) :
    ((∃ st2, self.contains st t now = .ok (true, st2)) ↔
       ∃ r, dictLookup st t = some r ∧ recExpired r now = false)
    ∧ (dictLookup st t = none → self.contains st t now = .ok (false, st))
    ∧ (∀ r, dictLookup st t = some r → recExpired r now = true →
        self.contains st t now = .ok (false, dictErase st t))
    ∧ (∀ r, dictLookup st t = some r → recExpired r now = false →
        self.contains st t now = .ok (true, st)) := by
  cases hl : dictLookup st t with
  | none =>
      simp [DictTokenStorage.contains, hl]
  | some r =>
      cases he : r.expireTime with
      | none =>
          simp [DictTokenStorage.contains, DictTokenStorage.checkExpire, hl, he,
            recExpired]
      | some e =>
          by_cases hlt : e < now
          · simp [DictTokenStorage.contains, DictTokenStorage.checkExpire, hl, he,
              recExpired, hlt]
          · simp [DictTokenStorage.contains, DictTokenStorage.checkExpire, hl, he,
              recExpired, hlt]

/-- Witness for claim C4: a record that expired at time 5, checked at time
10, yields false and is purged. -/
theorem dictTokenStorage_contains_correct_witness :
    DictTokenStorage.contains ⟨0⟩
        ([("tok", ⟨(), some 5, ["All"]⟩)] : TokenDict Unit) "tok" 10 =
      .ok (false, dictErase ([("tok", ⟨(), some 5, ["All"]⟩)] : TokenDict Unit) "tok") :=
  (dictTokenStorage_contains_correct ⟨0⟩ _ _ _).2.2.1 ⟨(), some 5, ["All"]⟩
    (by decide) (by decide)

/-- Claim C5: `DictTokenStorage.hasAccess` fails with a `KeyError` iff the
record is absent or has expired at call time; otherwise it returns true
iff every element of the requested scope list is present in the stored
scope. -/
theorem dictTokenStorage_hasAccess_correct {α : Type} (self : DictTokenStorage)
    (st : TokenDict α) (t : String) (scope : List String) (now : Int) :
    ((∃ msg st2, self.hasAccess st t scope now = .error (.keyError msg, st2)) ↔
       (dictLookup st t = none ∨
         ∃ r, dictLookup st t = some r ∧ recExpired r now = true))
    ∧ (∀ r, dictLookup st t = some r → recExpired r now = false →
        ∃ b, self.hasAccess st t scope now = .ok (b, st) ∧
          (b = true ↔ ∀ s ∈ scope, s ∈ r.scope)) := by
  cases hl : dictLookup st t with
  | none =>
      simp [DictTokenStorage.hasAccess, DictTokenStorage.checkExpire, hl]
  | some r =>
      cases he : r.expireTime with
      | none =>
          simp [DictTokenStorage.hasAccess, DictTokenStorage.checkExpire, hl, he,
            recExpired, List.all_eq_true, List.elem_iff]
      | some e =>
          by_cases hlt : e < now
          · simp [DictTokenStorage.hasAccess, DictTokenStorage.checkExpire, hl, he,
              recExpired, hlt]
          · simp [DictTokenStorage.hasAccess, DictTokenStorage.checkExpire, hl, he,
              recExpired, hlt, List.all_eq_true, List.elem_iff]

/-- Witness for claim C5: a live record with stored scope
`["All", "scope"]` grants `["All"]`. -/
theorem dictTokenStorage_hasAccess_correct_witness :
    DictTokenStorage.hasAccess ⟨0⟩
        ([("tok", ⟨(), none, ["All", "scope"]⟩)] : TokenDict Unit) "tok" ["All"] 7 =
      .ok (true, [("tok", ⟨(), none, ["All", "scope"]⟩)]) := by
  obtain ⟨b, hb, hiff⟩ :=
    (dictTokenStorage_hasAccess_correct ⟨0⟩
      ([("tok", ⟨(), none, ["All", "scope"]⟩)] : TokenDict Unit) "tok" ["All"] 7).2
      ⟨(), none, ["All", "scope"]⟩ (by decide) (by decide)
  have hbt : b = true := hiff.mpr (by decide)
  rw [hbt] at hb
  exact hb

/-- Claim C9: `DictTokenStorage.getTokenData` raises a `KeyError` when the
record is absent or has expired at call time (purging an expired record as
a side effect); it returns the stored scope/additional-data pair only for
a present, unexpired record. -/
theorem dictTokenStorage_getTokenData_correct {α : Type}
    (self : DictTokenStorage) (st : TokenDict α) (t : String) (now : Int) :
    (dictLookup st t = none →
      self.getTokenData st t now = .error (.keyError t, st))
    ∧ (∀ r, dictLookup st t = some r → recExpired r now = true →
        self.getTokenData st t now = .error (.keyError t, dictErase st t))
    ∧ (∀ r, dictLookup st t = some r → recExpired r now = false →
        self.getTokenData st t now = .ok ((r.scope, r.data), st)) := by
  cases hl : dictLookup st t with
  | none =>
      simp [DictTokenStorage.getTokenData, DictTokenStorage.checkExpire, hl]
  | some r =>
      cases he : r.expireTime with
      | none =>
          simp [DictTokenStorage.getTokenData, DictTokenStorage.checkExpire, hl, he,
            recExpired]
      | some e =>
          by_cases hlt : e < now
          · simp [DictTokenStorage.getTokenData, DictTokenStorage.checkExpire, hl, he,
              recExpired, hlt, dictLookup_erase_self]
          · simp [DictTokenStorage.getTokenData, DictTokenStorage.checkExpire, hl, he,
              recExpired, hlt]

/-- Witness for claim C9: reading an expired record raises a `KeyError`
and purges the record. -/
theorem dictTokenStorage_getTokenData_correct_witness :
    DictTokenStorage.getTokenData ⟨0⟩
        ([("tok", ⟨(), some 5, ["All"]⟩)] : TokenDict Unit) "tok" 10 =
      .error (.keyError "tok",
        dictErase ([("tok", ⟨(), some 5, ["All"]⟩)] : TokenDict Unit) "tok") :=
  (dictTokenStorage_getTokenData_correct ⟨0⟩ _ _ _).2.1 ⟨(), some 5, ["All"]⟩
    (by decide) (by decide)

/-- Claim C10: for a present, unexpired record, `hasAccess` with an empty
requested scope list returns true regardless of the stored scope. -/
theorem dictTokenStorage_hasAccess_emptyScope {α : Type}
    (self : DictTokenStorage) (st : TokenDict α) (t : String) (now : Int)
    (r : TokenRecord α) (hl : dictLookup st t = some r)
    (he : recExpired r now = false) :
    self.hasAccess st t [] now = .ok (true, st) := by
  cases hexp : r.expireTime with
  | none =>
      simp [DictTokenStorage.hasAccess, DictTokenStorage.checkExpire, hl, hexp]
  | some e =>
      have hlt : ¬e < now := by
        rw [recExpired, hexp] at he
        simpa using he
      simp [DictTokenStorage.hasAccess, DictTokenStorage.checkExpire, hl, hexp, hlt]

/-- Claim C3: a `store` whose `expireTime` is already in the past returns
normally and leaves the token table unchanged; in particular a token with
no prior record is still absent afterwards. -/
theorem dictTokenStorage_store_pastExpiry_noop {α γ : Type}
    (self : DictTokenStorage) (st : TokenDict α) (t : String) (client : γ)
    (scope : ScopeArg) (data : α) (e now : Int) (hpast : e < now) :
    self.store st t client scope data (some e) now = st
    ∧ (dictLookup st t = none →
        self.contains (self.store st t client scope data (some e) now) t now =
          .ok (false, st)) := by
  have hle : e ≤ now := le_of_lt hpast
  have hstore : self.store st t client scope data (some e) now = st := by
    simp [DictTokenStorage.store, hle]
  refine ⟨hstore, fun habsent => ?_⟩
  rw [hstore]
  simp [DictTokenStorage.contains, habsent]

/-- Witness for claim C3: storing a token that expired at time 5 when the
clock reads 10 is a no-op on the empty table, and the token stays
absent. -/
theorem dictTokenStorage_store_pastExpiry_noop_witness :
    DictTokenStorage.store ⟨0⟩ ([] : TokenDict Unit) "tok" () (.list ["All"]) ()
        (some 5) 10 = []
    ∧ DictTokenStorage.contains ⟨0⟩
        (DictTokenStorage.store ⟨0⟩ ([] : TokenDict Unit) "tok" () (.list ["All"]) ()
          (some 5) 10) "tok" 10 = .ok (false, []) :=
  ⟨(dictTokenStorage_store_pastExpiry_noop ⟨0⟩ [] "tok" () (.list ["All"]) () 5 10
      (by decide)).1,
   (dictTokenStorage_store_pastExpiry_noop ⟨0⟩ [] "tok" () (.list ["All"]) () 5 10
      (by decide)).2 (by decide)⟩

/-- Claim C1 counterexample: two distinct `DictTokenStorage` instances are
not independent stores.  With the shared table empty, instance B does not
contain the token, yet after instance A stores it (no expiry), B reports
it as contained — not false, as the claim asserts. -/
theorem dictTokenStorage_independence_counterexample :
    (⟨0⟩ : DictTokenStorage) ≠ (⟨1⟩ : DictTokenStorage)
    ∧ DictTokenStorage.contains ⟨1⟩ ([] : TokenDict Unit) "tok" 0 = .ok (false, [])
    ∧ DictTokenStorage.contains ⟨1⟩
        (DictTokenStorage.store ⟨0⟩ ([] : TokenDict Unit) "tok" () (.list ["All"]) ()
          none 0) "tok" 0 =
        .ok (true, [("tok", ⟨(), none, ["All"]⟩)]) :=
  ⟨by decide, rfl, rfl⟩

/-- Claim C1 (amended): all `DictTokenStorage` instances share the single
class-level token table, so a `store` through any instance A is visible
through every other instance B — after `A.store(t, client, scope)` with no
expiry, `B.contains(t)` returns true — and no operation's result depends
on the instance it is invoked on. -/
theorem dictTokenStorage_instances_share_table {α γ : Type}
    (a b : DictTokenStorage) (st : TokenDict α) (t : String) (client : γ)
    (scope : ScopeArg) (data : α) (now : Int) :
    DictTokenStorage.contains b
        (DictTokenStorage.store a st t client scope data none now) t now =
      .ok (true, DictTokenStorage.store a st t client scope data none now)
    ∧ DictTokenStorage.store a st t client scope data none now =
        DictTokenStorage.store b st t client scope data none now
    ∧ DictTokenStorage.contains a st t now = DictTokenStorage.contains b st t now := by
  refine ⟨?_, rfl, rfl⟩
  have hstore : DictTokenStorage.store a st t client scope data none now =
      dictInsert st t ⟨data, none,
        match scope with | .single s => [s] | .list l => l⟩ := by
    simp [DictTokenStorage.store]
  rw [hstore]
  simp [DictTokenStorage.contains, DictTokenStorage.checkExpire,
    dictLookup_insert_self]

/-- Claim C2: at the token endpoint, `grant_type` counted across the
combined query and body parameters is handled in this order: absent gives
`MissingParameterError`; repeated gives `MultipleParameterError` no matter
what the occurrences hold (duplication is checked before value validity);
a sole undecodable occurrence gives `InvalidParameterError`; a sole
decoded value outside the accepted grant types gives
`UnsupportedGrantTypeError` carrying the offending value. -/
theorem tokenResource_grantType_pipeline (accepted : List String)
    (r : TokenRequest) :
    (paramOccurrences r "grant_type" = [] →
      getGrantType accepted r = .error (.missingParameter "grant_type"))
    ∧ (2 ≤ (paramOccurrences r "grant_type").length →
        getGrantType accepted r = .error (.multipleParameter "grant_type"))
    ∧ (paramOccurrences r "grant_type" = [.undecodable] →
        getGrantType accepted r = .error (.invalidParameter "grant_type"))
    ∧ (∀ s, paramOccurrences r "grant_type" = [.text s] → s ∉ accepted →
        getGrantType accepted r = .error (.unsupportedGrantType s)) := by
  refine ⟨fun h => ?_, fun h => ?_, fun h => ?_, fun s h hs => ?_⟩
  · simp [getGrantType, h]
  · rcases hocc : paramOccurrences r "grant_type" with _ | ⟨v, _ | ⟨w, rest⟩⟩
    · rw [hocc] at h; simp at h
    · rw [hocc] at h; simp at h
    · simp [getGrantType, hocc]
  · simp [getGrantType, h]
  · simp [getGrantType, h]
    exact hs

/-- Witness for claim C2: the four rejection outcomes at concrete
requests, with `refresh_token` the only accepted grant type. -/
theorem tokenResource_grantType_pipeline_witness :
    getGrantType ["refresh_token"] ⟨[], []⟩ =
      .error (.missingParameter "grant_type")
    ∧ getGrantType ["refresh_token"]
        ⟨[("grant_type", .text "1")], [("grant_type", .text "refresh_token")]⟩ =
      .error (.multipleParameter "grant_type")
    ∧ getGrantType ["refresh_token"] ⟨[], [("grant_type", .undecodable)]⟩ =
      .error (.invalidParameter "grant_type")
    ∧ getGrantType ["refresh_token"]
        ⟨[], [("grant_type", .text "extendedFunctionalityGrantType")]⟩ =
      .error (.unsupportedGrantType "extendedFunctionalityGrantType") :=
  ⟨(tokenResource_grantType_pipeline ["refresh_token"] _).1 (by decide),
   (tokenResource_grantType_pipeline ["refresh_token"] _).2.1 (by decide),
   (tokenResource_grantType_pipeline ["refresh_token"] _).2.2.1 (by decide),
   (tokenResource_grantType_pipeline ["refresh_token"] _).2.2.2 _ (by decide)
     (by decide)⟩

/-- Claim C7: constructing a token endpoint resource with the password
grant among its enabled grant types and no password manager supplied fails
with a `ValueError` at construction itself. -/
theorem tokenResource_requires_passwordManager {π : Type}
    (grantTypes : List String) (hpw : "password" ∈ grantTypes) :
    mkTokenResource (π := π) (some grantTypes) none =
      .error (.valueError "No password manager provided") := by
  simp [mkTokenResource]
  exact hpw

/-- Witness for claim C7: an allow-list of just the password grant with no
password manager. -/
theorem tokenResource_requires_passwordManager_witness :
    mkTokenResource (π := Unit) (some ["password"]) none =
      .error (.valueError "No password manager provided") :=
  tokenResource_requires_passwordManager ["password"] (by decide)

theorem digitChar_hex (m : Nat) (h : m < 16) :
    isHexDigitChar (Nat.digitChar m) = true := by
  interval_cases m <;> decide

theorem digitChar_validToken (m : Nat) (h : m < 16) :
    validTokenChar (Nat.digitChar m) = true := by
  interval_cases m <;> decide

theorem hexDigits_length (w n : Nat) : (hexDigits w n).length = w := by
  induction w generalizing n with
  | zero => simp [hexDigits]
  | succ w ih => simp [hexDigits, ih]

theorem hexDigits_chars (w n : Nat) :
    ∀ c ∈ hexDigits w n, isHexDigitChar c = true ∧ validTokenChar c = true := by
  induction w generalizing n with
  | zero => simp [hexDigits]
  | succ w ih =>
      intro c hc
      rw [hexDigits] at hc
      rcases List.mem_append.mp hc with h | h
      · exact ih _ c h
      · have : c = Nat.digitChar (n % 16) := by simpa using h
        subst this
        exact ⟨digitChar_hex _ (Nat.mod_lt _ (by decide)),
          digitChar_validToken _ (Nat.mod_lt _ (by decide))⟩

theorem uuidString_data (r : Nat) :
    (uuidString r).data =
      hexDigits 8 (r % 2 ^ 128 / 16 ^ 24) ++ '-' ::
        (hexDigits 4 (r % 2 ^ 128 / 16 ^ 20) ++ '-' ::
          (hexDigits 4 (r % 2 ^ 128 / 16 ^ 16) ++ '-' ::
            (hexDigits 4 (r % 2 ^ 128 / 16 ^ 12) ++ '-' ::
              hexDigits 12 (r % 2 ^ 128)))) := rfl

/-- Claim C8: `UUIDTokenFactory.generateToken` returns the canonical
hyphenated lowercase-hexadecimal rendering of the drawn 128-bit
identifier, independent of the lifetime, client, scope and additional-data
arguments (which it ignores), and every returned value satisfies the
valid-token character predicate. -/
theorem uuidTokenFactory_generateToken_spec {β γ δ : Type} (r : Nat)
    (lifetime : β) (client : γ) (scope : List String) (additionalData : δ) :
    generateToken r lifetime client scope additionalData = uuidString r
    ∧ (∃ g1 g2 g3 g4 g5 : List Char,
        (uuidString r).data = g1 ++ '-' :: (g2 ++ '-' :: (g3 ++ '-' :: (g4 ++ '-' :: g5)))
        ∧ g1.length = 8 ∧ g2.length = 4 ∧ g3.length = 4 ∧ g4.length = 4
        ∧ g5.length = 12
        ∧ ∀ c, (c ∈ g1 ∨ c ∈ g2 ∨ c ∈ g3 ∨ c ∈ g4 ∨ c ∈ g5) →
            isHexDigitChar c = true)
    ∧ isValidToken (generateToken r lifetime client scope additionalData) = true := by
  refine ⟨rfl, ?_, ?_⟩
  · refine ⟨hexDigits 8 (r % 2 ^ 128 / 16 ^ 24), hexDigits 4 (r % 2 ^ 128 / 16 ^ 20),
      hexDigits 4 (r % 2 ^ 128 / 16 ^ 16), hexDigits 4 (r % 2 ^ 128 / 16 ^ 12),
      hexDigits 12 (r % 2 ^ 128), uuidString_data r, hexDigits_length _ _,
      hexDigits_length _ _, hexDigits_length _ _, hexDigits_length _ _,
      hexDigits_length _ _, ?_⟩
    intro c hc
    rcases hc with h | h | h | h | h <;> exact (hexDigits_chars _ _ c h).1
  · have hchars : ∀ c ∈ (uuidString r).data, validTokenChar c = true := by
      rw [uuidString_data]
      intro c hc
      rcases List.mem_append.mp hc with h | h
      · exact (hexDigits_chars _ _ c h).2
      · rcases List.mem_cons.mp h with h | h
        · subst h; decide
        · rcases List.mem_append.mp h with h | h
          · exact (hexDigits_chars _ _ c h).2
          · rcases List.mem_cons.mp h with h | h
            · subst h; decide
            · rcases List.mem_append.mp h with h | h
              · exact (hexDigits_chars _ _ c h).2
              · rcases List.mem_cons.mp h with h | h
                · subst h; decide
                · rcases List.mem_append.mp h with h | h
                  · exact (hexDigits_chars _ _ c h).2
                  · rcases List.mem_cons.mp h with h | h
                    · subst h; decide
                    · exact (hexDigits_chars _ _ c h).2
    have hne : (uuidString r).data ≠ [] := by
      rw [uuidString_data]
      intro hnil
      have := congrArg List.length hnil
      simp [hexDigits_length] at this
    show (!(generateToken r lifetime client scope additionalData).data.isEmpty &&
      (generateToken r lifetime client scope additionalData).data.all validTokenChar) = true
    have h1 : (generateToken r lifetime client scope additionalData).data.isEmpty = false := by
      show (uuidString r).data.isEmpty = false
      cases hd : (uuidString r).data with
      | nil => exact absurd hd hne
      | cons a l => rfl
    have h2 : (generateToken r lifetime client scope additionalData).data.all
        validTokenChar = true := by
      show (uuidString r).data.all validTokenChar = true
      rw [List.all_eq_true]
      exact hchars
    rw [h1, h2]
    rfl

theorem splitWsAux_cons_nonws (c : Char) (cs acc : List Char)
    (hc : c.isWhitespace = false) :
    splitWsAux (c :: cs) acc = splitWsAux cs (c :: acc) := by
  cases acc <;> simp [splitWsAux, hc]

theorem joinChars_cons_cons (x y : List Char) (ys : List (List Char)) :
    joinChars (x :: y :: ys) = x ++ ' ' :: joinChars (y :: ys) := rfl

theorem splitWsAux_word (x : List Char) :
    ∀ (cs acc : List Char), (∀ c ∈ x, c.isWhitespace = false) →
      splitWsAux (x ++ cs) acc = splitWsAux cs (x.reverse ++ acc) := by
  induction x with
  | nil => intro cs acc _; simp
  | cons c x ih =>
      intro cs acc hx
      have hc : c.isWhitespace = false := hx c (by simp)
      rw [List.cons_append, splitWsAux_cons_nonws c (x ++ cs) acc hc]
      rw [ih cs (c :: acc) (fun d hd => hx d (by simp [hd]))]
      simp [List.append_assoc]

theorem splitWsAux_nil_cons (d : Char) (t : List Char) :
    splitWsAux [] (d :: t) = [(d :: t).reverse] := rfl

theorem splitWsAux_space_cons (cs : List Char) (d : Char) (t : List Char) :
    splitWsAux (' ' :: cs) (d :: t) = (d :: t).reverse :: splitWsAux cs [] := rfl

theorem splitWsAux_join (l : List (List Char))
    (h : ∀ x ∈ l, x ≠ [] ∧ ∀ c ∈ x, c.isWhitespace = false) :
    splitWsAux (joinChars l) [] = l := by
  induction l with
  | nil => rfl
  | cons x xs ih =>
      obtain ⟨hx, hxw⟩ := h x (by simp)
      cases xs with
      | nil =>
          show splitWsAux (joinChars [x]) [] = [x]
          rw [joinChars]
          have := splitWsAux_word x [] [] hxw
          rw [List.append_nil] at this
          rw [this, List.append_nil]
          cases hrev : x.reverse with
          | nil => exact absurd (by simpa using hrev) hx
          | cons d t =>
              rw [splitWsAux_nil_cons, ← hrev, List.reverse_reverse]
      | cons y ys =>
          show splitWsAux (joinChars (x :: y :: ys)) [] = x :: y :: ys
          rw [joinChars_cons_cons]
          rw [splitWsAux_word x (' ' :: joinChars (y :: ys)) [] hxw,
            List.append_nil]
          cases hrev : x.reverse with
          | nil => exact absurd (by simpa using hrev) hx
          | cons d t =>
              rw [splitWsAux_space_cons, ← hrev, List.reverse_reverse]
              rw [ih (fun z hz => h z (by simp [hz]))]

theorem pySplit_joinSpace (l : List String)
    (h : ∀ u ∈ l, u.data ≠ [] ∧ ∀ c ∈ u.data, c.isWhitespace = false) :
    pySplit (joinSpace l) = l := by
  show (splitWsAux (joinSpace l).data []).map (fun cs => (⟨cs⟩ : String)) = l
  have hdata : (joinSpace l).data = joinChars (l.map String.data) := rfl
  rw [hdata, splitWsAux_join (l.map String.data) ?hall]
  case hall =>
    intro x hx
    rcases List.mem_map.mp hx with ⟨u, hu, rfl⟩
    exact h u hu
  rw [List.map_map]
  have hfun : ((fun cs => (⟨cs⟩ : String)) ∘ String.data) = id := by
    funext u
    rfl
  rw [hfun, List.map_id]

theorem cpHasSection_ensure (p : ConfigParser) (s : String) :
    cpHasSection (if cpHasSection p s then p else cpAddSection p s) s = true := by
  by_cases h : cpHasSection p s = true
  · simp [h]
  · rw [if_neg h]
    have hl : dictLookup p s = none := by
      cases hl : dictLookup p s with
      | none => rfl
      | some opts => exact absurd (by simp [cpHasSection, hl]) h
    simp [cpHasSection, cpAddSection, dictLookup_append, hl, dictLookup]

theorem cpHasSection_set (p : ConfigParser) (s s' k v : String) :
    cpHasSection (cpSet p s' k v) s = cpHasSection p s := by
  induction p with
  | nil => rfl
  | cons entry rest ih =>
      cases entry with
      | mk name opts =>
          rw [cpSet]
          by_cases hn : name = s'
          · rw [if_pos hn]
            by_cases hs : name = s
            · simp [cpHasSection, dictLookup, hs]
            · simp only [cpHasSection, dictLookup, if_neg hs]
          · rw [if_neg hn]
            by_cases hs : name = s
            · simp [cpHasSection, dictLookup, hs]
            · simp only [cpHasSection, dictLookup, if_neg hs]
              exact ih

theorem cpGet_set_self (p : ConfigParser) (s k v : String)
    (hs : cpHasSection p s = true) : cpGet (cpSet p s k v) s k = some v := by
  induction p with
  | nil => simp [cpHasSection, dictLookup] at hs
  | cons entry rest ih =>
      cases entry with
      | mk name opts =>
          rw [cpSet]
          by_cases hn : name = s
          · rw [if_pos hn]
            simp [cpGet, dictLookup, hn, dictLookup_insert_self]
          · rw [if_neg hn]
            have hs' : cpHasSection rest s = true := by
              simpa [cpHasSection, dictLookup, if_neg hn] using hs
            simpa [cpGet, dictLookup, if_neg hn] using ih hs'

theorem cpGet_set_other (p : ConfigParser) (s k k' v : String) (hk : k ≠ k') :
    cpGet (cpSet p s k' v) s k = cpGet p s k := by
  induction p with
  | nil => rfl
  | cons entry rest ih =>
      cases entry with
      | mk name opts =>
          rw [cpSet]
          by_cases hn : name = s
          · rw [if_pos hn]
            simp [cpGet, dictLookup, hn, dictLookup_insert_ne opts k' k v hk]
          · rw [if_neg hn]
            simpa [cpGet, dictLookup, if_neg hn] using ih

theorem hasScheme_ne_nil (u : String) (h : hasScheme u = true) : u.data ≠ [] := by
  intro hnil
  rw [hasScheme, hnil] at h
  simp [schemePart] at h

/-- Claim C6 (amended): for every valid client all of whose redirect URIs
are free of whitespace characters, `addClient` followed by
`getClient(c.id)` returns a client with the same `id`, `redirectUris`,
`authType` and `authToken`; and `getClient` on an id for which no client
record exists fails with a `KeyError`. -/
theorem configParserClientStorage_roundTrip (p : ConfigParser) (c : Client)
    (hvalid : c.valid = true)
    (hws : ∀ u ∈ c.redirectUris, ∀ ch ∈ u.data, ch.isWhitespace = false) :
    getClient (addClient p c) c.id = .ok c
    ∧ ∀ (q : ConfigParser) (clientId : String),
        cpHasSection q ("client_" ++ clientId) = false →
        getClient q clientId =
          .error (.keyError ("No client with id \"" ++ clientId ++ "\" exists")) := by
  constructor
  · set sec := "client_" ++ c.id with hsec
    set p1 := if cpHasSection p sec then p else cpAddSection p sec with hp1
    set p2 := cpSet p1 sec "auth_type" (toString c.authType.value) with hp2
    set p3 := cpSet p2 sec "auth_token" c.authToken with hp3
    have haddc : addClient p c = cpSet p3 sec "redirect_uris" (joinSpace c.redirectUris) := rfl
    have h1 : cpHasSection p1 sec = true := cpHasSection_ensure p sec
    have h2 : cpHasSection p2 sec = true := by
      rw [hp2, cpHasSection_set]
      exact h1
    have h3 : cpHasSection p3 sec = true := by
      rw [hp3, cpHasSection_set]
      exact h2
    have h4 : cpHasSection (addClient p c) sec = true := by
      rw [haddc, cpHasSection_set]
      exact h3
    have hgud : cpGet (addClient p c) sec "redirect_uris" =
        some (joinSpace c.redirectUris) := by
      rw [haddc]
      exact cpGet_set_self p3 sec _ _ h3
    have hgat : cpGet (addClient p c) sec "auth_type" =
        some (toString c.authType.value) := by
      rw [haddc, cpGet_set_other _ _ _ _ _ (by decide)]
      rw [hp3, cpGet_set_other _ _ _ _ _ (by decide)]
      exact cpGet_set_self p1 sec _ _ h1
    have hgtk : cpGet (addClient p c) sec "auth_token" = some c.authToken := by
      rw [haddc, cpGet_set_other _ _ _ _ _ (by decide)]
      exact cpGet_set_self p2 sec _ _ h2
    have hlist : ∀ u ∈ c.redirectUris,
        u.data ≠ [] ∧ ∀ ch ∈ u.data, ch.isWhitespace = false := by
      intro u hu
      refine ⟨?_, hws u hu⟩
      have hv := hvalid
      rw [Client.valid, List.all_eq_true] at hv
      have hu2 := hv u hu
      simp only [Bool.and_eq_true] at hu2
      exact hasScheme_ne_nil u hu2.1
    have hsplit : pySplit (joinSpace c.redirectUris) = c.redirectUris :=
      pySplit_joinSpace _ hlist
    cases hat : c.authType with
    | PUBLIC =>
        have e1 : strToNat (toString (ClientAuthType.value .PUBLIC)) = some 0 := by decide
        simp [getClient, cpGetE, h4, hgud, hgat, hgtk, hsplit, hat, e1,
          ClientAuthType.ofValue]
        rw [← hat]
    | SECRET =>
        have e1 : strToNat (toString (ClientAuthType.value .SECRET)) = some 1 := by decide
        simp [getClient, cpGetE, h4, hgud, hgat, hgtk, hsplit, hat, e1,
          ClientAuthType.ofValue]
        rw [← hat]
    | NONE =>
        have e1 : strToNat (toString (ClientAuthType.value .NONE)) = some 2 := by decide
        simp [getClient, cpGetE, h4, hgud, hgat, hgtk, hsplit, hat, e1,
          ClientAuthType.ofValue]
        rw [← hat]
  · intro q clientId hq
    simp [getClient, hq]

/-- Claim C6 counterexample: a valid client (its sole redirect URI has a
scheme and no fragment) whose redirect URI contains a space does not
round-trip: the whitespace-joined storage format splits it into two URIs
on reload. -/
theorem configParserClientStorage_roundTrip_counterexample :
    Client.valid ⟨"c1", ["http://example.nonexistent/a b"], .SECRET, "secret"⟩ = true
    ∧ getClient
        (addClient [] ⟨"c1", ["http://example.nonexistent/a b"], .SECRET, "secret"⟩)
        "c1" =
        .ok ⟨"c1", ["http://example.nonexistent/a", "b"], .SECRET, "secret"⟩
    ∧ (⟨"c1", ["http://example.nonexistent/a", "b"], .SECRET, "secret"⟩ : Client) ≠
        ⟨"c1", ["http://example.nonexistent/a b"], .SECRET, "secret"⟩ :=
  ⟨by decide, by rfl, by decide⟩

/-- Witness for claim C6 (amended): a client with two whitespace-free
absolute redirect URIs round-trips through an empty store, and an
unknown id fails with a `KeyError`. -/
theorem configParserClientStorage_roundTrip_witness :
    getClient
        (addClient []
          ⟨"c1", ["https://return.nonexistent", "custom://callback"], .SECRET,
            "newClientSecret"⟩) "c1" =
      .ok ⟨"c1", ["https://return.nonexistent", "custom://callback"], .SECRET,
        "newClientSecret"⟩
    ∧ getClient [] "invalidClientId" =
        .error (.keyError "No client with id \"invalidClientId\" exists") :=
  ⟨(configParserClientStorage_roundTrip []
      ⟨"c1", ["https://return.nonexistent", "custom://callback"], .SECRET,
        "newClientSecret"⟩ (by decide) (by decide)).1,
   (configParserClientStorage_roundTrip []
      ⟨"c1", ["https://return.nonexistent", "custom://callback"], .SECRET,
        "newClientSecret"⟩ (by decide) (by decide)).2 [] "invalidClientId" rfl⟩

/-- Witness for claim C10: a live record whose stored scope is `["All"]`
grants the empty scope request. -/
theorem dictTokenStorage_hasAccess_emptyScope_witness :
    DictTokenStorage.hasAccess ⟨0⟩
        ([("tok", ⟨(), none, ["All"]⟩)] : TokenDict Unit) "tok" [] 3 =
      .ok (true, [("tok", ⟨(), none, ["All"]⟩)]) :=
  dictTokenStorage_hasAccess_emptyScope ⟨0⟩ _ "tok" 3 ⟨(), none, ["All"]⟩
    (by decide) (by decide)
